import Mathlib

/-!
# Adaptive exam engine — shallow embedding and verification

Shallow embedding of the adaptive assessment core of
`app/routers/lectures.py` together with the data model of `app/models.py`:
the question catalog, test sessions, the answer evaluator, the difficulty
controller, the question selector and the session orchestrator
(`start_session` / `answer_question`).

Modelling conventions:
* Python `Optional[T]` becomes `Option T`; fallible endpoints become
  `Except`-valued functions whose error constructors mirror the
  `HTTPException` raises of the source (all raises in `answer_question`
  happen before any session mutation, and the embedding preserves that
  ordering: an `.error` result means the stored session is untouched).
* Timestamps are abstract: `datetime.now()` becomes an explicit `now : Nat`
  parameter, and `completed_at` is an `Option Nat`.
* Python float arithmetic (`accuracy`, `score`) is modelled with `Rat`.
  The only accuracies the difficulty controller can see are `k / n` with
  `n ∈ {1,2,3}`, and on those values the double comparisons
  `>= 0.8` and `<= 0.5` of the source agree with the exact rational
  comparisons `≥ 4/5` and `≤ 1/2` used here.
* `str.strip().lower()` is modelled character-wise over `String.data`
  (ASCII whitespace and ASCII case mapping); Unicode-specific differences
  are outside the model.
-/

/-- `MCQOption` of `app/models.py`. -/
structure MCQOption where
  text : String
  is_correct : Bool
deriving Repr, DecidableEq

/-- `GeneratedQuestion` of `app/models.py` (the `type` field is renamed
`qtype` because `type` is a Lean keyword). -/
structure GeneratedQuestion where
  id : String
  qtype : String
  prompt : String
  options : Option (List MCQOption) := none
  answer : Option String := none
  explanation : Option String := none
  topic : Option String := none
  difficulty : Option String := none
deriving Repr, DecidableEq

/-- `Lecture` of `app/models.py`, restricted to the fields the adaptive
engine reads. -/
structure Lecture where
  id : String
  questions : List GeneratedQuestion := []
deriving Repr, DecidableEq

/-- `AnswerRecord` of `app/models.py`. -/
structure AnswerRecord where
  question_id : String
  is_correct : Bool
  learner_answer : Option String := none
  selected_option_index : Option Int := none
  difficulty : Option String := none
  time_spent : Option Int := none
deriving Repr, DecidableEq

/-- `TestSession` of `app/models.py` (proctoring flags are irrelevant to the
claims and omitted; timestamps are abstract naturals). -/
structure TestSession where
  id : String
  lecture_id : String
  learner_id : Option String := none
  current_difficulty : String := "medium"
  answers : List AnswerRecord := []
  correct_count : Nat := 0
  total_answered : Nat := 0
  completed_at : Option Nat := none
deriving Repr, DecidableEq

/-- `AnswerQuestionRequest` of `app/models.py` (without the session id,
which the embedding resolves before calling `answer_question`). -/
structure AnswerQuestionRequest where
  question_id : String
  learner_answer : Option String := none
  selected_option_index : Option Int := none
  time_spent : Option Int := none
deriving Repr, DecidableEq

/-- `AnswerQuestionResponse` of `app/models.py`. -/
structure AnswerQuestionResponse where
  correct : Bool
  correct_answer : Option String
  explanation : Option String
  finished : Bool
  score : Rat
  next_question : Option GeneratedQuestion
  current_difficulty : String
deriving Repr, DecidableEq

/-- The `HTTPException` raises of `answer_question` in
`app/routers/lectures.py`, as distinct error values. -/
inductive SubmitError where
  /-- 404 "Question not found in lecture." (`get_question_by_id`). -/
  | questionNotFound
  /-- 400 "selected_option_index is required for MCQ questions." -/
  | missingOptionIndex
  /-- 400 "selected_option_index is out of range." -/
  | optionIndexOutOfRange
deriving Repr, DecidableEq

/-- The failure of `start_session`: 400 "Lecture not found or no questions
generated yet." / "No questions available." -/
inductive StartError where
  | noQuestionsAvailable
deriving Repr, DecidableEq

/-- `DIFFICULTY_ORDER = ["easy", "medium", "hard"]` (lectures.py line 37). -/
def DIFFICULTY_ORDER : List String := ["easy", "medium", "hard"]

/-- `question_already_answered` (lectures.py lines 51-52). -/
def question_already_answered (session : TestSession) (question_id : String) : Bool :=
  session.answers.any fun a => a.question_id == question_id

/-- `get_question_by_id` (lectures.py lines 44-48); the 404 raise becomes
`none`. -/
def get_question_by_id (lecture : Lecture) (question_id : String) :
    Option GeneratedQuestion :=
  lecture.questions.find? fun q => q.id == question_id

/-- `select_next_question` (lectures.py lines 55-80): first unanswered
question at the session's difficulty, else first unanswered question, else
`none`. -/
def select_next_question (lecture : Lecture) (session : TestSession) :
    Option GeneratedQuestion :=
  let candidates := lecture.questions.filter fun q =>
    q.difficulty == some session.current_difficulty &&
      !question_already_answered session q.id
  match candidates.head? with
  | some q => some q
  | none =>
    let remaining := lecture.questions.filter fun q =>
      !question_already_answered session q.id
    remaining.head?

/-- Python `l[-n:]`: the last `min n l.length` elements of `l`. -/
def lastN (n : Nat) (l : List α) : List α :=
  l.drop (l.length - n)

/-- `update_difficulty` (lectures.py lines 83-102). `answers[-3:]` is
`lastN 3`; `DIFFICULTY_ORDER.index(...) if ... in ... else 1` is the
`contains`-guarded `indexOf`; the float comparisons are exact rational ones
(see the header note). -/
def update_difficulty (session : TestSession) : TestSession :=
  if session.answers.isEmpty then session
  else
    let window := lastN 3 session.answers
    let correct := (window.filter fun a => a.is_correct).length
    let accuracy : Rat := (correct : Rat) / (window.length : Rat)
    let current_idx : Nat :=
      if DIFFICULTY_ORDER.contains session.current_difficulty then
        DIFFICULTY_ORDER.indexOf session.current_difficulty
      else 1
    if (4 : Rat) / 5 ≤ accuracy ∧ current_idx < DIFFICULTY_ORDER.length - 1 then
      { session with current_difficulty := DIFFICULTY_ORDER.getD (current_idx + 1) "" }
    else if accuracy ≤ (1 : Rat) / 2 ∧ 0 < current_idx then
      { session with current_difficulty := DIFFICULTY_ORDER.getD (current_idx - 1) "" }
    else session

/-- Model of Python `str.strip`: drop leading and trailing whitespace
characters. -/
def stripChars (l : List Char) : List Char :=
  ((l.dropWhile Char.isWhitespace).reverse.dropWhile Char.isWhitespace).reverse

/-- Model of Python `str.lower` on one character (ASCII case mapping). -/
def lowerChar (c : Char) : Char :=
  if 'A' ≤ c ∧ c ≤ 'Z' then Char.ofNat (c.toNat + 32) else c

/-- `normalize_text` (lectures.py lines 105-106): `(s or "").strip().lower()`. -/
def normalize_text (s : Option String) : String :=
  ⟨(stripChars (s.getD "").data).map lowerChar⟩

/-- The evaluation block of `answer_question` (lectures.py lines 263-291):
given the looked-up question and the request, either an `HTTPException`
(mcq index absent / out of range) or `(is_correct, correct_answer_text)`. -/
def evaluate_submission (question : GeneratedQuestion)
    (req : AnswerQuestionRequest) : Except SubmitError (Bool × Option String) :=
  if question.qtype = "mcq" then
    match req.selected_option_index with
    | none => .error .missingOptionIndex
    | some idx =>
      let opts := question.options.getD []
      if idx < 0 ∨ (opts.length : Int) ≤ idx then
        .error .optionIndexOutOfRange
      else
        let is_correct := (opts.getD idx.toNat ⟨"", false⟩).is_correct
        let correct_answer_text :=
          match opts.find? (fun o => o.is_correct) with
          | some o => some o.text
          | none => question.answer
        .ok (is_correct, correct_answer_text)
  else
    .ok (decide (normalize_text req.learner_answer = normalize_text question.answer),
         question.answer)

/-- The score expression of lectures.py line 317:
`correct_count / total_answered if total_answered else 0.0`. -/
def session_score (s : TestSession) : Rat :=
  if s.total_answered ≠ 0 then (s.correct_count : Rat) / (s.total_answered : Rat)
  else 0

/-- `answer_question` (lectures.py lines 250-338) for an already-resolved
lecture and session: evaluate the submission, append the `AnswerRecord`,
bump the counters, run `update_difficulty`, select the next question, and
on exhaustion stamp `completed_at := now`. Every error is raised before the
first mutation, exactly as in the source. -/
def answer_question (lecture : Lecture) (session : TestSession)
    (req : AnswerQuestionRequest) (now : Nat) :
    Except SubmitError (TestSession × AnswerQuestionResponse) :=
  match get_question_by_id lecture req.question_id with
  | none => .error .questionNotFound
  | some question =>
    match evaluate_submission question req with
    | .error e => .error e
    | .ok (is_correct, correct_answer_text) =>
      let s1 : TestSession := { session with
        total_answered := session.total_answered + 1
        correct_count := session.correct_count + (if is_correct then 1 else 0)
        answers := session.answers ++ [{
          question_id := question.id
          is_correct := is_correct
          learner_answer := req.learner_answer
          selected_option_index := req.selected_option_index
          difficulty := question.difficulty
          time_spent := req.time_spent }] }
      let s2 := update_difficulty s1
      let next_q := select_next_question lecture s2
      let finished := next_q.isNone
      let score := session_score s2
      let s3 := if finished then { s2 with completed_at := some now } else s2
      .ok (s3, {
        correct := is_correct
        correct_answer := correct_answer_text
        explanation := question.explanation
        finished := finished
        score := score
        next_question := next_q
        current_difficulty := s3.current_difficulty })

/-- `start_session` (lectures.py lines 215-247): fresh session at "medium",
fails if the catalog is empty or the selector finds nothing. -/
def start_session (lecture : Lecture) (session_id : String)
    (learner_id : Option String) :
    Except StartError (TestSession × GeneratedQuestion) :=
  if lecture.questions.isEmpty then .error .noQuestionsAvailable
  else
    let session : TestSession := {
      id := session_id
      lecture_id := lecture.id
      learner_id := learner_id
      current_difficulty := "medium" }
    match select_next_question lecture session with
    | none => .error .noQuestionsAvailable
    | some q => .ok (session, q)

/-!
## Spec-side definitions

These translate the wording of the specification, to be compared against
the source-derived definitions above.
-/

/-- Spec wording: promote one level in the order easy < medium < hard
(hard has nothing above it). -/
def spec_promote : String → String
  | "easy" => "medium"
  | "medium" => "hard"
  | d => d

/-- Spec wording: demote one level in the order easy < medium < hard
(easy has nothing below it). -/
def spec_demote : String → String
  | "hard" => "medium"
  | "medium" => "easy"
  | d => d

/-- Spec wording: accuracy over the window of the last `min 3 n` answer
records. -/
def window_accuracy (answers : List AnswerRecord) : Rat :=
  let w := lastN 3 answers
  ((w.filter fun a => a.is_correct).length : Rat) / (w.length : Rat)

/-- Position of a difficulty in the order easy < medium < hard. -/
def levelIdx (d : String) : Nat := DIFFICULTY_ORDER.indexOf d

/-- The counter invariant of spec §8: `total_answered == len(answers)` and
`correct_count == count(is_correct=True in answers)`. -/
def counters_ok (s : TestSession) : Prop :=
  s.total_answered = s.answers.length ∧
  s.correct_count = (s.answers.filter fun a => a.is_correct).length

/-- Sessions reachable through the orchestrator: created by `start_session`
and evolved by successful `answer_question` calls. -/
inductive Reachable (lecture : Lecture) : TestSession → Prop where
  | start (session_id : String) (learner_id : Option String)
      (s : TestSession) (q : GeneratedQuestion)
      (h : start_session lecture session_id learner_id = .ok (s, q)) :
      Reachable lecture s
  | step (s : TestSession) (req : AnswerQuestionRequest) (now : Nat)
      (s' : TestSession) (resp : AnswerQuestionResponse)
      (hr : Reachable lecture s)
      (h : answer_question lecture s req now = .ok (s', resp)) :
      Reachable lecture s'

/-!
## Concrete fixtures

Small catalogs and sessions used by the counterexamples and the witnesses.
-/

/-- A one-question catalog: a short_answer question with answer "a". -/
def qFix1 : GeneratedQuestion :=
  { id := "q1", qtype := "short_answer", prompt := "p",
    answer := some "a", difficulty := some "medium" }

/-- A second short_answer question, answer "b". -/
def qFix2 : GeneratedQuestion :=
  { id := "q2", qtype := "short_answer", prompt := "p2",
    answer := some "b", difficulty := some "medium" }

/-- A two-option mcq (Scenario C/D of the spec): options Paris (correct)
and Lyon. -/
def qFixMcq : GeneratedQuestion :=
  { id := "qm", qtype := "mcq", prompt := "capital?",
    options := some [⟨"Paris", true⟩, ⟨"Lyon", false⟩],
    answer := some "Paris", difficulty := some "medium" }

/-- An mcq question with an empty option list (data-quality edge case of
spec §6). -/
def qFixEmptyMcq : GeneratedQuestion :=
  { id := "qe", qtype := "mcq", prompt := "broken",
    options := some [], answer := some "a", difficulty := some "medium" }

/-- A fill_blank question whose stored answer is "Photosynthesis"
(Scenario E). -/
def qFixFill : GeneratedQuestion :=
  { id := "qf", qtype := "fill_blank", prompt := "plants do ___",
    answer := some "Photosynthesis", difficulty := some "medium" }

/-- A short_answer question with no stored answer. -/
def qFixNoAnswer : GeneratedQuestion :=
  { id := "qn", qtype := "short_answer", prompt := "p", answer := none,
    difficulty := some "medium" }

/-- One-question lecture over `qFix1`. -/
def lecFix1 : Lecture := { id := "L", questions := [qFix1] }

/-- Two-question lecture over `qFix1`, `qFix2`. -/
def lecFix2 : Lecture := { id := "L", questions := [qFix1, qFix2] }

/-- Lecture holding the mcq fixtures and the text fixtures. -/
def lecFixMix : Lecture :=
  { id := "L", questions := [qFixMcq, qFixEmptyMcq, qFixFill, qFixNoAnswer] }

/-- The record produced by answering `qFix1` correctly. -/
def recFix1 : AnswerRecord :=
  { question_id := "q1", is_correct := true, learner_answer := some "a",
    difficulty := some "medium" }

/-- A COMPLETE session on `lecFix1`: `qFix1` answered, counters 1/1,
`completed_at` stamped at time 0 (the state `answer_question` leaves after
exhausting the one-question catalog). -/
def sessFixComplete : TestSession :=
  { id := "S", lecture_id := "L", current_difficulty := "hard",
    answers := [recFix1], correct_count := 1, total_answered := 1,
    completed_at := some 0 }

/-- An ACTIVE session on `lecFix2` with `qFix1` already answered. -/
def sessFixMid : TestSession :=
  { id := "S", lecture_id := "L", current_difficulty := "hard",
    answers := [recFix1], correct_count := 1, total_answered := 1 }

/-- A fresh session on the mixed lecture. -/
def sessFixFresh : TestSession := { id := "S", lecture_id := "L" }

/-!
## Helper lemmas
-/

/-- The head of a filtered list is the first element satisfying the
predicate. -/
theorem head?_filter_eq_find? (p : α → Bool) (l : List α) :
    (l.filter p).head? = l.find? p := by
  induction l with
  | nil => rfl
  | cons a l ih =>
    by_cases h : p a
    · simp [List.filter_cons, h]
    · simp [List.filter_cons, h, ih]

/-- `select_next_question` as first-match search: first unanswered question
at the session's difficulty, else first unanswered question. -/
theorem select_next_question_eq_find? (lecture : Lecture) (session : TestSession) :
    select_next_question lecture session =
      match lecture.questions.find? (fun q =>
          q.difficulty == some session.current_difficulty &&
            !question_already_answered session q.id) with
      | some q => some q
      | none => lecture.questions.find? fun q =>
          !question_already_answered session q.id := by
  unfold select_next_question
  simp only [head?_filter_eq_find?]

/-- C4: the question selector returns the first question in catalog order
among unanswered questions at the session's current difficulty; failing
that, the first unanswered question in catalog order; it never returns an
already-answered question; and it returns the terminal signal (`none`) iff
every catalog question id already appears in the session's answers. -/
theorem C4_selector_spec (lecture : Lecture) (session : TestSession) :
    (select_next_question lecture session =
      match lecture.questions.find? (fun q =>
          q.difficulty == some session.current_difficulty &&
            !question_already_answered session q.id) with
      | some q => some q
      | none => lecture.questions.find? fun q =>
          !question_already_answered session q.id) ∧
    (∀ q, select_next_question lecture session = some q →
      question_already_answered session q.id = false) ∧
    (select_next_question lecture session = none ↔
      ∀ q ∈ lecture.questions, question_already_answered session q.id = true) := by
  have hEq := select_next_question_eq_find? lecture session
  refine ⟨hEq, ?_, ?_⟩
  · intro q hq
    rw [hEq] at hq
    cases h1 : lecture.questions.find? (fun q =>
        q.difficulty == some session.current_difficulty &&
          !question_already_answered session q.id) with
    | some q' =>
      rw [h1] at hq
      cases hq
      have hp := List.find?_some h1
      simp only [Bool.and_eq_true, Bool.not_eq_true'] at hp
      exact hp.2
    | none =>
      rw [h1] at hq
      have hp := List.find?_some hq
      simpa using hp
  · rw [hEq]
    constructor
    · intro h q hqmem
      cases h1 : lecture.questions.find? (fun q =>
          q.difficulty == some session.current_difficulty &&
            !question_already_answered session q.id) with
      | some q' => rw [h1] at h; cases h
      | none =>
        rw [h1] at h
        have := List.find?_eq_none.mp h q hqmem
        simpa using this
    · intro hall
      have h1 : lecture.questions.find? (fun q =>
          q.difficulty == some session.current_difficulty &&
            !question_already_answered session q.id) = none := by
        apply List.find?_eq_none.mpr
        intro q hq
        simp [hall q hq]
      have h2 : (lecture.questions.find? fun q =>
          !question_already_answered session q.id) = none := by
        apply List.find?_eq_none.mpr
        intro q hq
        simp [hall q hq]
      rw [h1, h2]

/-- Re-submission of `qFix1`'s answer. -/
def reqFixResubmit : AnswerQuestionRequest :=
  { question_id := "q1", learner_answer := some "a" }


/-- Kernel-computable characterization of `update_difficulty`: since the
window is nonempty whenever the answers list is, the rational threshold
tests `4/5 ≤ correct/size` and `correct/size ≤ 1/2` are equivalent to the
integer tests `4 * size ≤ 5 * correct` and `2 * correct ≤ size`. -/
def update_difficulty_nat (session : TestSession) : TestSession :=
  if session.answers.isEmpty then session
  else
    let window := lastN 3 session.answers
    let correct := (window.filter fun a => a.is_correct).length
    let current_idx : Nat :=
      if DIFFICULTY_ORDER.contains session.current_difficulty then
        DIFFICULTY_ORDER.indexOf session.current_difficulty
      else 1
    if 4 * window.length ≤ 5 * correct ∧ current_idx < DIFFICULTY_ORDER.length - 1 then
      { session with current_difficulty := DIFFICULTY_ORDER.getD (current_idx + 1) "" }
    else if 2 * correct ≤ window.length ∧ 0 < current_idx then
      { session with current_difficulty := DIFFICULTY_ORDER.getD (current_idx - 1) "" }
    else session

/-- `update_difficulty` agrees with its integer-threshold characterization. -/
theorem update_difficulty_eq_nat (s : TestSession) :
    update_difficulty s = update_difficulty_nat s := by
  unfold update_difficulty update_difficulty_nat
  by_cases h : s.answers.isEmpty
  · simp [h]
  · have hne : s.answers ≠ [] := by simpa [List.isEmpty_iff] using h
    have hlen : 0 < (lastN 3 s.answers).length := by
      have : 0 < s.answers.length := List.length_pos.mpr hne
      simp only [lastN, List.length_drop]
      omega
    have hnpos : (0 : Rat) < ((lastN 3 s.answers).length : Rat) := by
      exact_mod_cast hlen
    have h1 : ((4 : Rat) / 5 ≤
        ((((lastN 3 s.answers).filter fun a => a.is_correct).length : Rat) /
          ((lastN 3 s.answers).length : Rat))) ↔
        4 * (lastN 3 s.answers).length ≤
          5 * ((lastN 3 s.answers).filter fun a => a.is_correct).length := by
      rw [div_le_div_iff₀ (by norm_num) hnpos]
      rw [show (4 : Rat) * ((lastN 3 s.answers).length : Rat) =
          ((4 * (lastN 3 s.answers).length : Nat) : Rat) by push_cast; ring]
      rw [show (((lastN 3 s.answers).filter fun a => a.is_correct).length : Rat) * 5 =
          ((5 * ((lastN 3 s.answers).filter fun a => a.is_correct).length : Nat) : Rat) by
        push_cast; ring]
      exact Nat.cast_le
    have h2 : ((((lastN 3 s.answers).filter fun a => a.is_correct).length : Rat) /
          ((lastN 3 s.answers).length : Rat) ≤ (1 : Rat) / 2) ↔
        2 * ((lastN 3 s.answers).filter fun a => a.is_correct).length ≤
          (lastN 3 s.answers).length := by
      rw [div_le_div_iff₀ hnpos (by norm_num)]
      rw [show (((lastN 3 s.answers).filter fun a => a.is_correct).length : Rat) * 2 =
          ((2 * ((lastN 3 s.answers).filter fun a => a.is_correct).length : Nat) : Rat) by
        push_cast; ring]
      rw [show (1 : Rat) * ((lastN 3 s.answers).length : Rat) =
          (((lastN 3 s.answers).length : Nat) : Rat) by rw [one_mul]]
      exact Nat.cast_le
    simp only [h, Bool.false_eq_true, if_false, h1, h2]

/-- `answer_question` with the difficulty step replaced by its
integer-threshold characterization; used to evaluate the orchestrator on
concrete inputs. -/
def answer_question_nat (lecture : Lecture) (session : TestSession)
    (req : AnswerQuestionRequest) (now : Nat) :
    Except SubmitError (TestSession × AnswerQuestionResponse) :=
  match get_question_by_id lecture req.question_id with
  | none => .error .questionNotFound
  | some question =>
    match evaluate_submission question req with
    | .error e => .error e
    | .ok (is_correct, correct_answer_text) =>
      let s1 : TestSession := { session with
        total_answered := session.total_answered + 1
        correct_count := session.correct_count + (if is_correct then 1 else 0)
        answers := session.answers ++ [{
          question_id := question.id
          is_correct := is_correct
          learner_answer := req.learner_answer
          selected_option_index := req.selected_option_index
          difficulty := question.difficulty
          time_spent := req.time_spent }] }
      let s2 := update_difficulty_nat s1
      let next_q := select_next_question lecture s2
      let finished := next_q.isNone
      let score := session_score s2
      let s3 := if finished then { s2 with completed_at := some now } else s2
      .ok (s3, {
        correct := is_correct
        correct_answer := correct_answer_text
        explanation := question.explanation
        finished := finished
        score := score
        next_question := next_q
        current_difficulty := s3.current_difficulty })

/-- The orchestrator agrees with its computable variant. -/
theorem answer_question_eq_nat (lecture : Lecture) (session : TestSession)
    (req : AnswerQuestionRequest) (now : Nat) :
    answer_question lecture session req now =
      answer_question_nat lecture session req now := by
  unfold answer_question answer_question_nat
  simp only [update_difficulty_eq_nat]

/-- C1: the spec requires a submit on a COMPLETE session (completion
timestamp set) to fail with SessionAlreadyComplete, without evaluating the
submission, appending an AnswerRecord, changing the counters, or
re-stamping the completion timestamp. The code has no completed-session
guard at all: on the COMPLETE session `sessFixComplete` (one-question
catalog exhausted, completed at time 0) a further `answer_question` call
succeeds, evaluates the submission, appends a second `AnswerRecord`, bumps
both counters to 2, and re-stamps `completed_at` with the new time 7. -/
theorem C1_complete_session_resubmit_succeeds :
    ((answer_question lecFix1 sessFixComplete reqFixResubmit 7).toOption.map fun p =>
      (p.1.answers.length, p.1.total_answered, p.1.correct_count, p.1.completed_at)) =
      some (2, 2, 2, some 7) := by
  rw [answer_question_eq_nat]
  decide

/-- C2, counterexample: a `submit_answer` call naming a question id already
present in the answers list does append a second `AnswerRecord` for it,
contrary to the claim. On session `sessFixMid` (only "q1" answered, catalog
["q1", "q2"]) re-submitting "q1" succeeds and leaves an answers list whose
question ids are ["q1", "q1"]. -/
theorem C2_resubmit_appends_duplicate :
    ((answer_question lecFix2 sessFixMid reqFixResubmit 7).toOption.map fun p =>
      p.1.answers.map fun a => a.question_id) = some ["q1", "q1"] := by
  rw [answer_question_eq_nat]
  decide

/-- The difficulty step touches only `current_difficulty`. -/
theorem update_difficulty_fields (s : TestSession) :
    (update_difficulty s).answers = s.answers ∧
    (update_difficulty s).correct_count = s.correct_count ∧
    (update_difficulty s).total_answered = s.total_answered ∧
    (update_difficulty s).completed_at = s.completed_at := by
  refine ⟨?_, ?_, ?_, ?_⟩ <;>
    (unfold update_difficulty; dsimp only; repeat' split) <;> rfl

/-- The `AnswerRecord` that `answer_question` appends (lectures.py lines
298-307). -/
def appended_record (q : GeneratedQuestion) (req : AnswerQuestionRequest)
    (b : Bool) : AnswerRecord :=
  { question_id := q.id, is_correct := b, learner_answer := req.learner_answer,
    selected_option_index := req.selected_option_index,
    difficulty := q.difficulty, time_spent := req.time_spent }

/-- The session right after the counter updates and the append
(lectures.py lines 294-307), before the difficulty step. -/
def bumped_session (s : TestSession) (q : GeneratedQuestion)
    (req : AnswerQuestionRequest) (b : Bool) : TestSession :=
  { s with
    total_answered := s.total_answered + 1
    correct_count := s.correct_count + (if b then 1 else 0)
    answers := s.answers ++ [appended_record q req b] }

/-- Shape of a successful `answer_question` call: with the question found
and the submission evaluated, the result is fully determined by the
bumped session. -/
theorem answer_question_ok_spec (lecture : Lecture) (s : TestSession)
    (req : AnswerQuestionRequest) (now : Nat) (q : GeneratedQuestion)
    (b : Bool) (t : Option String)
    (hq : get_question_by_id lecture req.question_id = some q)
    (hev : evaluate_submission q req = .ok (b, t)) :
    answer_question lecture s req now =
      (let s2 := update_difficulty (bumped_session s q req b)
       let next_q := select_next_question lecture s2
       let finished := next_q.isNone
       let s3 := if finished then { s2 with completed_at := some now } else s2
       .ok (s3, { correct := b, correct_answer := t,
                  explanation := q.explanation, finished := finished,
                  score := session_score s2, next_question := next_q,
                  current_difficulty := s3.current_difficulty })) := by
  simp only [bumped_session, appended_record]
  unfold answer_question
  simp only [hq, hev]

/-- A submission naming an id absent from the catalog fails with
QuestionNotFound. -/
theorem answer_question_notfound (lecture : Lecture) (s : TestSession)
    (req : AnswerQuestionRequest) (now : Nat)
    (hq : get_question_by_id lecture req.question_id = none) :
    answer_question lecture s req now = .error .questionNotFound := by
  unfold answer_question
  rw [hq]

/-- An evaluation error surfaces unchanged from `answer_question`. -/
theorem answer_question_eval_error (lecture : Lecture) (s : TestSession)
    (req : AnswerQuestionRequest) (now : Nat) (q : GeneratedQuestion)
    (e : SubmitError)
    (hq : get_question_by_id lecture req.question_id = some q)
    (hev : evaluate_submission q req = .error e) :
    answer_question lecture s req now = .error e := by
  unfold answer_question
  simp only [hq, hev]

theorem stamp_fields (s : TestSession) (c : Bool) (now : Nat) :
    ((if c = true then { s with completed_at := some now } else s).answers = s.answers) ∧
    ((if c = true then { s with completed_at := some now } else s).total_answered = s.total_answered) ∧
    ((if c = true then { s with completed_at := some now } else s).correct_count = s.correct_count) ∧
    ((if c = true then { s with completed_at := some now } else s).current_difficulty = s.current_difficulty) := by
  split <;> exact ⟨rfl, rfl, rfl, rfl⟩

theorem answer_question_ok_inv (lecture : Lecture) (s : TestSession)
    (req : AnswerQuestionRequest) (now : Nat) (s' : TestSession)
    (resp : AnswerQuestionResponse)
    (h : answer_question lecture s req now = .ok (s', resp)) :
    ∃ q b t, get_question_by_id lecture req.question_id = some q ∧
      evaluate_submission q req = .ok (b, t) ∧
      s'.answers = s.answers ++ [appended_record q req b] ∧
      s'.total_answered = s.total_answered + 1 ∧
      s'.correct_count = s.correct_count + (if b then 1 else 0) ∧
      resp.correct = b ∧ resp.correct_answer = t ∧
      resp.score = session_score (update_difficulty (bumped_session s q req b)) := by
  unfold answer_question at h
  split at h
  · exact absurd h (by simp)
  next q hq =>
    split at h
    · exact absurd h (by simp)
    next b t hev =>
      refine ⟨q, b, t, hq, hev, ?_⟩
      rw [Except.ok.injEq, Prod.mk.injEq] at h
      obtain ⟨hs, hresp⟩ := h
      subst hs
      subst hresp
      refine ⟨?_, ?_, ?_, rfl, rfl, rfl⟩
      · rw [(stamp_fields _ _ _).1, (update_difficulty_fields _).1]
        rfl
      · rw [(stamp_fields _ _ _).2.1, (update_difficulty_fields _).2.2.1]
      · rw [(stamp_fields _ _ _).2.2.1, (update_difficulty_fields _).2.1]

/-- The selector only ever returns unanswered questions. -/
theorem select_next_question_not_answered (lecture : Lecture) (s : TestSession)
    (q : GeneratedQuestion) (h : select_next_question lecture s = some q) :
    question_already_answered s q.id = false := by
  rw [select_next_question_eq_find?] at h
  cases h1 : lecture.questions.find? (fun q =>
      q.difficulty == some s.current_difficulty &&
        !question_already_answered s q.id) with
  | some q' =>
    rw [h1] at h
    cases h
    have hp := List.find?_some h1
    simp only [Bool.and_eq_true, Bool.not_eq_true'] at hp
    exact hp.2
  | none =>
    rw [h1] at h
    have hp := List.find?_some h
    simpa using hp

/-- C2 (amended): the selector never returns an already-answered question,
but `answer_question` itself does not reject re-submissions (see the
counterexample); the no-duplicate invariant is preserved exactly when the
submitted question id is not already in the answers list: such a
successful call keeps the question ids of the answers list pairwise
distinct. -/
theorem C2_amended_nodup (lecture : Lecture) (s : TestSession)
    (req : AnswerQuestionRequest) (now : Nat) (s' : TestSession)
    (resp : AnswerQuestionResponse)
    (hnodup : (s.answers.map fun a => a.question_id).Nodup)
    (hnew : question_already_answered s req.question_id = false)
    (hok : answer_question lecture s req now = .ok (s', resp)) :
    (s'.answers.map fun a => a.question_id).Nodup ∧
    ∀ q2, select_next_question lecture s = some q2 →
      question_already_answered s q2.id = false := by
  refine ⟨?_, fun q2 h2 => select_next_question_not_answered lecture s q2 h2⟩
  obtain ⟨q, b, t, hq, hev, hans, -, -, -, -, -⟩ :=
    answer_question_ok_inv _ _ _ _ _ _ hok
  have hid : q.id = req.question_id := by
    unfold get_question_by_id at hq
    have := List.find?_some hq
    simpa using this
  unfold question_already_answered at hnew
  simp only [List.any_eq_false, beq_iff_eq] at hnew
  rw [hans]
  simp only [List.map_append, appended_record, List.map_cons, List.map_nil]
  rw [List.nodup_append]
  refine ⟨hnodup, List.nodup_singleton _, ?_⟩
  intro x hx hx1
  simp only [List.mem_singleton] at hx1
  subst hx1
  obtain ⟨a, ha, hax⟩ := List.mem_map.mp hx
  exact absurd (hax.trans hid) (by simpa using fun hh => (hnew a ha) hh)

/-- Submission of `qFix2`'s answer. -/
def reqFixQ2 : AnswerQuestionRequest :=
  { question_id := "q2", learner_answer := some "b" }

/-- Witness for C2 (amended) at a concrete input: submitting the
unanswered "q2" on `sessFixMid` preserves distinctness of question ids. -/
theorem C2_amended_nodup_witness :
    ∃ s' resp, answer_question lecFix2 sessFixMid reqFixQ2 7 = .ok (s', resp) ∧
      (s'.answers.map fun a => a.question_id).Nodup ∧
      question_already_answered sessFixMid reqFixQ2.question_id = false := by
  obtain ⟨p, hp⟩ : ∃ p, answer_question lecFix2 sessFixMid reqFixQ2 7 = .ok p := by
    rw [answer_question_eq_nat]
    exact ⟨_, rfl⟩
  refine ⟨p.1, p.2, hp, ?_, by decide⟩
  exact (C2_amended_nodup lecFix2 sessFixMid reqFixQ2 7 p.1 p.2
    (by decide) (by decide) hp).1

/-- The trailing window is nonempty whenever the history is. -/
theorem lastN3_length_pos (answers : List AnswerRecord) (h : answers ≠ []) :
    0 < (lastN 3 answers).length := by
  have : 0 < answers.length := List.length_pos.mpr h
  simp only [lastN, List.length_drop]
  omega

/-- The promote threshold `accuracy >= 0.8` in integer form. -/
theorem accuracy_promote_iff (answers : List AnswerRecord) (h : answers ≠ []) :
    ((4 : Rat) / 5 ≤ window_accuracy answers) ↔
      4 * (lastN 3 answers).length ≤
        5 * ((lastN 3 answers).filter fun a => a.is_correct).length := by
  have hnpos : (0 : Rat) < ((lastN 3 answers).length : Rat) := by
    exact_mod_cast lastN3_length_pos answers h
  unfold window_accuracy
  rw [div_le_div_iff₀ (by norm_num) hnpos]
  rw [show (4 : Rat) * ((lastN 3 answers).length : Rat) =
      ((4 * (lastN 3 answers).length : Nat) : Rat) by push_cast; ring]
  rw [show (((lastN 3 answers).filter fun a => a.is_correct).length : Rat) * 5 =
      ((5 * ((lastN 3 answers).filter fun a => a.is_correct).length : Nat) : Rat) by
    push_cast; ring]
  exact Nat.cast_le

/-- The demote threshold `accuracy <= 0.5` in integer form. -/
theorem accuracy_demote_iff (answers : List AnswerRecord) (h : answers ≠ []) :
    (window_accuracy answers ≤ (1 : Rat) / 2) ↔
      2 * ((lastN 3 answers).filter fun a => a.is_correct).length ≤
        (lastN 3 answers).length := by
  have hnpos : (0 : Rat) < ((lastN 3 answers).length : Rat) := by
    exact_mod_cast lastN3_length_pos answers h
  unfold window_accuracy
  rw [div_le_div_iff₀ hnpos (by norm_num)]
  rw [show (((lastN 3 answers).filter fun a => a.is_correct).length : Rat) * 2 =
      ((2 * ((lastN 3 answers).filter fun a => a.is_correct).length : Nat) : Rat) by
    push_cast; ring]
  rw [show (1 : Rat) * ((lastN 3 answers).length : Rat) =
      (((lastN 3 answers).length : Nat) : Rat) by rw [one_mul]]
  exact Nat.cast_le

/-- C3: the difficulty step computes accuracy over the last
`min 3 len(answers)` records; an empty history is a no-op; accuracy ≥ 0.8
promotes exactly one level (unless already hard), accuracy ≤ 0.5 demotes
exactly one level (unless already easy), anything else leaves the
difficulty unchanged; the result stays in {easy, medium, hard} and moves
by at most one level per call. -/
theorem C3_update_difficulty (s : TestSession)
    (h : s.current_difficulty ∈ DIFFICULTY_ORDER) :
    (s.answers = [] → update_difficulty s = s) ∧
    (lastN 3 s.answers).length = min 3 s.answers.length ∧
    (s.answers ≠ [] →
      (update_difficulty s).current_difficulty =
        (if (4 : Rat) / 5 ≤ window_accuracy s.answers then
           spec_promote s.current_difficulty
         else if window_accuracy s.answers ≤ (1 : Rat) / 2 then
           spec_demote s.current_difficulty
         else s.current_difficulty)) ∧
    (update_difficulty s).current_difficulty ∈ DIFFICULTY_ORDER ∧
    Nat.dist (levelIdx (update_difficulty s).current_difficulty)
      (levelIdx s.current_difficulty) ≤ 1 := by
  have hwin : (lastN 3 s.answers).length = min 3 s.answers.length := by
    simp only [lastN, List.length_drop]
    omega
  by_cases hA : s.answers = []
  · have hupd : update_difficulty s = s := by simp [update_difficulty, hA]
    exact ⟨fun _ => hupd, hwin, fun hne => absurd hA hne,
      by rw [hupd]; exact h, by rw [hupd, Nat.dist_self]; omega⟩
  · have hne' : s.answers.isEmpty = false := by
      simpa [List.isEmpty_iff] using hA
    have hd3 : s.current_difficulty = "easy" ∨ s.current_difficulty = "medium" ∨
        s.current_difficulty = "hard" := by
      simpa [DIFFICULTY_ORDER] using h
    have hpos := lastN3_length_pos s.answers hA
    have key : (update_difficulty s).current_difficulty =
        (if (4 : Rat) / 5 ≤ window_accuracy s.answers then
           spec_promote s.current_difficulty
         else if window_accuracy s.answers ≤ (1 : Rat) / 2 then
           spec_demote s.current_difficulty
         else s.current_difficulty) := by
      rw [update_difficulty_eq_nat]
      unfold update_difficulty_nat
      simp only [hne', Bool.false_eq_true, if_false,
        accuracy_promote_iff s.answers hA, accuracy_demote_iff s.answers hA]
      by_cases h1 : 4 * (lastN 3 s.answers).length ≤
          5 * ((lastN 3 s.answers).filter fun a => a.is_correct).length
      · by_cases h2 : 2 * ((lastN 3 s.answers).filter fun a => a.is_correct).length ≤
            (lastN 3 s.answers).length
        · exfalso
          omega
        · rcases hd3 with hd | hd | hd <;>
            simp [h1, h2, DIFFICULTY_ORDER, spec_promote, hd]
      · by_cases h2 : 2 * ((lastN 3 s.answers).filter fun a => a.is_correct).length ≤
            (lastN 3 s.answers).length
        · rcases hd3 with hd | hd | hd <;>
            simp [h1, h2, DIFFICULTY_ORDER, spec_demote, hd]
        · rcases hd3 with hd | hd | hd <;>
            simp [h1, h2, DIFFICULTY_ORDER, hd]
    have hres : (update_difficulty s).current_difficulty =
        spec_promote s.current_difficulty ∨
        (update_difficulty s).current_difficulty =
          spec_demote s.current_difficulty ∨
        (update_difficulty s).current_difficulty = s.current_difficulty := by
      rw [key]
      split
      · exact .inl rfl
      · split
        · exact .inr (.inl rfl)
        · exact .inr (.inr rfl)
    refine ⟨fun hA' => absurd hA' hA, hwin, fun _ => key, ?_, ?_⟩
    · rcases hd3 with hd | hd | hd <;> rcases hres with hr | hr | hr <;>
        rw [hr, hd] <;> decide
    · rcases hd3 with hd | hd | hd <;> rcases hres with hr | hr | hr <;>
        rw [hr, hd] <;> decide

/-- Three-correct-answers session at difficulty "medium" (Scenario B). -/
def sessFixWin : TestSession :=
  { id := "S", lecture_id := "L", current_difficulty := "medium",
    answers := [recFix1, recFix1, recFix1], correct_count := 3,
    total_answered := 3 }

/-- Witness for C3 at the concrete session `sessFixWin`. -/
theorem C3_update_difficulty_witness :
    sessFixWin.current_difficulty ∈ DIFFICULTY_ORDER ∧
    ((sessFixWin.answers = [] → update_difficulty sessFixWin = sessFixWin) ∧
     (lastN 3 sessFixWin.answers).length = min 3 sessFixWin.answers.length ∧
     (sessFixWin.answers ≠ [] →
       (update_difficulty sessFixWin).current_difficulty =
         (if (4 : Rat) / 5 ≤ window_accuracy sessFixWin.answers then
            spec_promote sessFixWin.current_difficulty
          else if window_accuracy sessFixWin.answers ≤ (1 : Rat) / 2 then
            spec_demote sessFixWin.current_difficulty
          else sessFixWin.current_difficulty)) ∧
     (update_difficulty sessFixWin).current_difficulty ∈ DIFFICULTY_ORDER ∧
     Nat.dist (levelIdx (update_difficulty sessFixWin).current_difficulty)
       (levelIdx sessFixWin.current_difficulty) ≤ 1) :=
  ⟨by decide, C3_update_difficulty sessFixWin (by decide)⟩

/-- An mcq submission fails with the missing-index error iff no index was
supplied. -/
theorem evaluate_submission_mcq_missing_iff (q : GeneratedQuestion)
    (req : AnswerQuestionRequest) (hmcq : q.qtype = "mcq") :
    evaluate_submission q req = .error .missingOptionIndex ↔
      req.selected_option_index = none := by
  unfold evaluate_submission
  rw [if_pos hmcq]
  cases hidx : req.selected_option_index with
  | none => simp
  | some i =>
    simp only [reduceCtorEq, iff_false]
    split <;> simp

/-- An mcq submission fails with the out-of-range error iff the supplied
index is negative or at least the option count. -/
theorem evaluate_submission_mcq_range_iff (q : GeneratedQuestion)
    (req : AnswerQuestionRequest) (hmcq : q.qtype = "mcq") :
    evaluate_submission q req = .error .optionIndexOutOfRange ↔
      ∃ i, req.selected_option_index = some i ∧
        (i < 0 ∨ ((q.options.getD []).length : Int) ≤ i) := by
  unfold evaluate_submission
  rw [if_pos hmcq]
  cases hidx : req.selected_option_index with
  | none => simp
  | some i =>
    simp only [Option.some.injEq]
    split
    · next hrange => simp only [true_iff]; exact ⟨i, rfl, hrange⟩
    · next hrange =>
      simp only [reduceCtorEq, false_iff]
      rintro ⟨j, hj, hcond⟩
      cases hj
      exact hrange hcond

/-- The evaluator only ever raises the two InvalidSubmission errors. -/
theorem evaluate_submission_error_cases (q : GeneratedQuestion)
    (req : AnswerQuestionRequest) (e : SubmitError)
    (hev : evaluate_submission q req = .error e) :
    e = .missingOptionIndex ∨ e = .optionIndexOutOfRange := by
  unfold evaluate_submission at hev
  split at hev
  · cases hidx : req.selected_option_index with
    | none => rw [hidx] at hev; cases hev; exact .inl rfl
    | some i =>
      rw [hidx] at hev
      dsimp only at hev
      split at hev
      · cases hev; exact .inr rfl
      · exact absurd hev (by simp)
  · exact absurd hev (by simp)

/-- A successfully evaluated mcq submission had a valid index, and the
result is the selected option's flag and the first flagged option's text
(falling back to the stored answer). -/
theorem evaluate_submission_mcq_ok_inv (q : GeneratedQuestion)
    (req : AnswerQuestionRequest) (b : Bool) (t : Option String)
    (hmcq : q.qtype = "mcq")
    (hev : evaluate_submission q req = .ok (b, t)) :
    ∃ i, req.selected_option_index = some i ∧ 0 ≤ i ∧
      i < ((q.options.getD []).length : Int) ∧
      b = ((q.options.getD []).getD i.toNat ⟨"", false⟩).is_correct ∧
      t = (match (q.options.getD []).find? (fun o => o.is_correct) with
           | some o => some o.text
           | none => q.answer) := by
  unfold evaluate_submission at hev
  rw [if_pos hmcq] at hev
  cases hidx : req.selected_option_index with
  | none => rw [hidx] at hev; exact absurd hev (by simp)
  | some i =>
    rw [hidx] at hev
    dsimp only at hev
    split at hev
    · exact absurd hev (by simp)
    · next hrange =>
      push_neg at hrange
      rw [Except.ok.injEq, Prod.mk.injEq] at hev
      exact ⟨i, rfl, hrange.1, hrange.2, hev.1.symm, hev.2.symm⟩

/-- A failing `answer_question` call is either a catalog miss or an
evaluation failure; in both cases nothing was mutated yet in the source. -/
theorem answer_question_error_inv (lecture : Lecture) (s : TestSession)
    (req : AnswerQuestionRequest) (now : Nat) (e : SubmitError)
    (h : answer_question lecture s req now = .error e) :
    (get_question_by_id lecture req.question_id = none ∧
      e = .questionNotFound) ∨
    (∃ q, get_question_by_id lecture req.question_id = some q ∧
      evaluate_submission q req = .error e) := by
  unfold answer_question at h
  split at h
  · next hq => cases h; exact .inl ⟨hq, rfl⟩
  · next q hq =>
    split at h
    · next e' hev => cases h; exact .inr ⟨q, hq, hev⟩
    · exact absurd h (by simp)

/-- C5: for an mcq question, `answer_question` fails with
InvalidSubmission exactly when the selected index is absent, negative, or
at least the option count; every error it can raise (the question being
found) is one of those two; and a successful call proves the index was
valid, so an invalid submission is never silently graded. All these error
paths raise before any session mutation in the source, so the session
keeps its prior counters and answers. -/
theorem C5_mcq_invalid_submission (lecture : Lecture) (s : TestSession)
    (req : AnswerQuestionRequest) (now : Nat) (q : GeneratedQuestion)
    (hq : get_question_by_id lecture req.question_id = some q)
    (hmcq : q.qtype = "mcq") :
    (answer_question lecture s req now = .error .missingOptionIndex ↔
      req.selected_option_index = none) ∧
    (answer_question lecture s req now = .error .optionIndexOutOfRange ↔
      ∃ i, req.selected_option_index = some i ∧
        (i < 0 ∨ ((q.options.getD []).length : Int) ≤ i)) ∧
    (∀ e, answer_question lecture s req now = .error e →
      e = .missingOptionIndex ∨ e = .optionIndexOutOfRange) ∧
    (∀ s' resp, answer_question lecture s req now = .ok (s', resp) →
      ∃ i, req.selected_option_index = some i ∧ 0 ≤ i ∧
        i < ((q.options.getD []).length : Int)) := by
  have herr : ∀ e, answer_question lecture s req now = .error e →
      evaluate_submission q req = .error e := by
    intro e he
    rcases answer_question_error_inv _ _ _ _ _ he with ⟨hq0, -⟩ | ⟨q', hq', hev⟩
    · rw [hq0] at hq; cases hq
    · rw [hq'] at hq; cases hq; exact hev
  refine ⟨⟨?_, ?_⟩, ⟨?_, ?_⟩, ?_, ?_⟩
  · intro he
    exact (evaluate_submission_mcq_missing_iff q req hmcq).mp (herr _ he)
  · intro hnone
    exact answer_question_eval_error _ _ _ _ _ _ hq
      ((evaluate_submission_mcq_missing_iff q req hmcq).mpr hnone)
  · intro he
    exact (evaluate_submission_mcq_range_iff q req hmcq).mp (herr _ he)
  · intro hex
    exact answer_question_eval_error _ _ _ _ _ _ hq
      ((evaluate_submission_mcq_range_iff q req hmcq).mpr hex)
  · intro e he
    exact evaluate_submission_error_cases q req e (herr e he)
  · intro s' resp hok
    obtain ⟨q', b, t, hq', hev, -, -, -, -, -, -⟩ :=
      answer_question_ok_inv _ _ _ _ _ _ hok
    rw [hq'] at hq
    cases hq
    obtain ⟨i, hi, h0, hlt, -, -⟩ :=
      evaluate_submission_mcq_ok_inv _ _ _ _ hmcq hev
    exact ⟨i, hi, h0, hlt⟩

/-- Scenario D submission: option index 5. -/
def reqFixBadIdx : AnswerQuestionRequest :=
  { question_id := "qm", selected_option_index := some 5 }

/-- Witness for C5, Scenario D: index 5 against the 2-option mcq is
rejected as out of range. -/
theorem C5_mcq_invalid_submission_witness :
    get_question_by_id lecFixMix reqFixBadIdx.question_id = some qFixMcq ∧
    qFixMcq.qtype = "mcq" ∧
    answer_question lecFixMix sessFixFresh reqFixBadIdx 0 =
      .error .optionIndexOutOfRange :=
  ⟨by decide, rfl,
    (C5_mcq_invalid_submission lecFixMix sessFixFresh reqFixBadIdx 0 qFixMcq
      (by decide) rfl).2.1.mpr ⟨5, rfl, Or.inr (by decide)⟩⟩

/-- Submission with index 0 against the empty-option mcq. -/
def reqFixEmptyIdx : AnswerQuestionRequest :=
  { question_id := "qe", selected_option_index := some 0 }

/-- C6, counterexample: on the empty-option-list mcq `qFixEmptyMcq`, a
submission with index 0 is NOT graded as incorrect — it fails with the
out-of-range InvalidSubmission error, so the claimed degrade-to-incorrect
behavior does not occur. -/
theorem C6_empty_options_rejected :
    answer_question lecFixMix sessFixFresh reqFixEmptyIdx 0 =
      .error .optionIndexOutOfRange := rfl

/-- C6 (amended): `answer_question` on an mcq with a missing or empty
option list does not crash, but it does not grade the submission as
incorrect either: every submission is rejected with an InvalidSubmission
error (missing index if none was given, out-of-range otherwise). -/
theorem C6_amended_empty_options (lecture : Lecture) (s : TestSession)
    (req : AnswerQuestionRequest) (now : Nat) (q : GeneratedQuestion)
    (hq : get_question_by_id lecture req.question_id = some q)
    (hmcq : q.qtype = "mcq")
    (hempty : q.options.getD [] = []) :
    answer_question lecture s req now = .error .missingOptionIndex ∨
    answer_question lecture s req now = .error .optionIndexOutOfRange := by
  cases hidx : req.selected_option_index with
  | none =>
    exact .inl (answer_question_eval_error _ _ _ _ _ _ hq
      ((evaluate_submission_mcq_missing_iff q req hmcq).mpr hidx))
  | some i =>
    refine .inr (answer_question_eval_error _ _ _ _ _ _ hq
      ((evaluate_submission_mcq_range_iff q req hmcq).mpr ⟨i, hidx, ?_⟩))
    rw [hempty]
    simp only [List.length_nil, Nat.cast_zero]
    omega

/-- Witness for C6 (amended) on the concrete empty-option mcq. -/
theorem C6_amended_empty_options_witness :
    get_question_by_id lecFixMix reqFixEmptyIdx.question_id = some qFixEmptyMcq ∧
    qFixEmptyMcq.options.getD [] = [] ∧
    (answer_question lecFixMix sessFixFresh reqFixEmptyIdx 0 =
        .error .missingOptionIndex ∨
     answer_question lecFixMix sessFixFresh reqFixEmptyIdx 0 =
        .error .optionIndexOutOfRange) :=
  ⟨by decide, rfl, C6_amended_empty_options lecFixMix sessFixFresh reqFixEmptyIdx 0
    qFixEmptyMcq (by decide) rfl rfl⟩

/-- Forward evaluation of a valid mcq submission. -/
theorem evaluate_submission_mcq_ok (q : GeneratedQuestion)
    (req : AnswerQuestionRequest) (i : Int) (hmcq : q.qtype = "mcq")
    (hidx : req.selected_option_index = some i)
    (h0 : 0 ≤ i) (hlt : i < ((q.options.getD []).length : Int)) :
    evaluate_submission q req =
      .ok (((q.options.getD []).getD i.toNat ⟨"", false⟩).is_correct,
        match (q.options.getD []).find? (fun o => o.is_correct) with
        | some o => some o.text
        | none => q.answer) := by
  unfold evaluate_submission
  rw [if_pos hmcq, hidx]
  dsimp only
  rw [if_neg (by push_neg; exact ⟨h0, hlt⟩)]

/-- C7: for an mcq question with a non-empty option list and a valid
selected index, evaluation does not raise; correctness equals the selected
option's is_correct flag; the canonical answer text is the text of the
first option flagged is_correct in list order, falling back to the
question's stored answer field when no option is flagged, in which case
every selected index is graded incorrect. -/
theorem C7_mcq_grading (lecture : Lecture) (s : TestSession)
    (req : AnswerQuestionRequest) (now : Nat) (q : GeneratedQuestion) (i : Int)
    (hq : get_question_by_id lecture req.question_id = some q)
    (hmcq : q.qtype = "mcq")
    ( _hne : q.options.getD [] ≠ [])
    (hidx : req.selected_option_index = some i)
    (h0 : 0 ≤ i) (hlt : i < ((q.options.getD []).length : Int)) :
    ∃ s' resp, answer_question lecture s req now = .ok (s', resp) ∧
      resp.correct = ((q.options.getD []).getD i.toNat ⟨"", false⟩).is_correct ∧
      resp.correct_answer =
        (match (q.options.getD []).find? (fun o => o.is_correct) with
         | some o => some o.text
         | none => q.answer) ∧
      ((∀ o ∈ q.options.getD [], o.is_correct = false) →
        resp.correct = false ∧ resp.correct_answer = q.answer) := by
  have hev := evaluate_submission_mcq_ok q req i hmcq hidx h0 hlt
  rw [answer_question_ok_spec lecture s req now q _ _ hq hev]
  refine ⟨_, _, rfl, rfl, rfl, ?_⟩
  intro hall
  have hfind : (q.options.getD []).find? (fun o => o.is_correct) = none :=
    List.find?_eq_none.mpr (by intro x hx; simp [hall x hx])
  have htn : i.toNat < (q.options.getD []).length := by omega
  constructor
  · show ((q.options.getD []).getD i.toNat ⟨"", false⟩).is_correct = false
    rw [List.getD_eq_getElem (q.options.getD []) ⟨"", false⟩ htn]
    exact hall _ (List.getElem_mem htn)
  · show (match (q.options.getD []).find? (fun o => o.is_correct) with
      | some o => some o.text
      | none => q.answer) = q.answer
    rw [hfind]

/-- Scenario C submission: option index 0 ("Paris"). -/
def reqFixParis : AnswerQuestionRequest :=
  { question_id := "qm", selected_option_index := some 0 }

/-- Witness for C7, Scenario C: selecting "Paris" is graded correct with
canonical text "Paris". -/
theorem C7_mcq_grading_witness :
    qFixMcq.options.getD [] ≠ [] ∧
    ∃ s' resp, answer_question lecFixMix sessFixFresh reqFixParis 0 =
        .ok (s', resp) ∧
      resp.correct = true ∧ resp.correct_answer = some "Paris" := by
  obtain ⟨s', resp, hok, hc, hca, -⟩ :=
    C7_mcq_grading lecFixMix sessFixFresh reqFixParis 0 qFixMcq 0
      (by decide) rfl (by decide) rfl (by decide) (by decide)
  exact ⟨by decide, s', resp, hok, by rw [hc]; rfl, by rw [hca]; rfl⟩

/-- Forward evaluation of a fill_blank / short_answer submission. -/
theorem evaluate_submission_text (q : GeneratedQuestion)
    (req : AnswerQuestionRequest) (hty : q.qtype ≠ "mcq") :
    evaluate_submission q req =
      .ok (decide (normalize_text req.learner_answer = normalize_text q.answer),
        q.answer) := by
  unfold evaluate_submission
  rw [if_neg hty]

/-- C8: a fill_blank or short_answer submission is graded correct iff the
submitted text, trimmed of surrounding whitespace and case-folded, is
exactly equal to the stored answer under the same normalization — a pure
equality, with no fuzzy matching. -/
theorem C8_text_grading (lecture : Lecture) (s : TestSession)
    (req : AnswerQuestionRequest) (now : Nat) (q : GeneratedQuestion)
    (hq : get_question_by_id lecture req.question_id = some q)
    (hty : q.qtype = "fill_blank" ∨ q.qtype = "short_answer") :
    ∃ s' resp, answer_question lecture s req now = .ok (s', resp) ∧
      (resp.correct = true ↔
        (stripChars (req.learner_answer.getD "").data).map lowerChar =
          (stripChars (q.answer.getD "").data).map lowerChar) := by
  have hmcq : q.qtype ≠ "mcq" := by
    rcases hty with h | h <;> rw [h] <;> decide
  rw [answer_question_ok_spec lecture s req now q _ _ hq
    (evaluate_submission_text q req hmcq)]
  refine ⟨_, _, rfl, ?_⟩
  show decide (normalize_text req.learner_answer = normalize_text q.answer) = true ↔ _
  rw [decide_eq_true_iff]
  unfold normalize_text
  simp [String.ext_iff]

/-- Scenario E submission. -/
def reqFixPhoto : AnswerQuestionRequest :=
  { question_id := "qf", learner_answer := some " photosynthesis " }

/-- Witness for C8, Scenario E: submission " photosynthesis " against
answer "Photosynthesis" is graded correct. -/
theorem C8_text_grading_witness :
    (qFixFill.qtype = "fill_blank" ∨ qFixFill.qtype = "short_answer") ∧
    ∃ s' resp, answer_question lecFixMix sessFixFresh reqFixPhoto 0 =
        .ok (s', resp) ∧ resp.correct = true := by
  obtain ⟨s', resp, hok, hiff⟩ :=
    C8_text_grading lecFixMix sessFixFresh reqFixPhoto 0 qFixFill
      (by decide) (.inl rfl)
  exact ⟨.inl rfl, s', resp, hok, hiff.mpr (by decide)⟩

/-- C10: for a fill_blank or short_answer question, a missing (None)
learner answer never raises: it is normalized to the empty string and
graded, so it is correct exactly when the stored answer is missing or
normalizes to the empty string. -/
theorem C10_missing_answer (lecture : Lecture) (s : TestSession)
    (req : AnswerQuestionRequest) (now : Nat) (q : GeneratedQuestion)
    (hq : get_question_by_id lecture req.question_id = some q)
    (hty : q.qtype = "fill_blank" ∨ q.qtype = "short_answer")
    (hnone : req.learner_answer = none) :
    ∃ s' resp, answer_question lecture s req now = .ok (s', resp) ∧
      (resp.correct = true ↔ normalize_text q.answer = "") := by
  have hmcq : q.qtype ≠ "mcq" := by
    rcases hty with h | h <;> rw [h] <;> decide
  rw [answer_question_ok_spec lecture s req now q _ _ hq
    (evaluate_submission_text q req hmcq)]
  refine ⟨_, _, rfl, ?_⟩
  show decide (normalize_text req.learner_answer = normalize_text q.answer) = true ↔ _
  rw [decide_eq_true_iff, hnone]
  constructor
  · intro h
    rw [← h]
    rfl
  · intro h
    rw [h]
    rfl

/-- Submission with no learner answer at all. -/
def reqFixNoAns : AnswerQuestionRequest := { question_id := "qn" }

/-- Witness for C10: a missing answer against the answerless question
`qFixNoAnswer` is graded correct. -/
theorem C10_missing_answer_witness :
    reqFixNoAns.learner_answer = none ∧
    ∃ s' resp, answer_question lecFixMix sessFixFresh reqFixNoAns 0 =
        .ok (s', resp) ∧ resp.correct = true := by
  obtain ⟨s', resp, hok, hiff⟩ :=
    C10_missing_answer lecFixMix sessFixFresh reqFixNoAns 0 qFixNoAnswer
      (by decide) (.inr rfl) rfl
  exact ⟨rfl, s', resp, hok, hiff.mpr (by decide)⟩

/-- A freshly started session satisfies the counter invariant. -/
theorem counters_ok_start (lecture : Lecture) (sid : String)
    (lid : Option String) (s : TestSession) (q : GeneratedQuestion)
    (h : start_session lecture sid lid = .ok (s, q)) : counters_ok s := by
  unfold start_session at h
  split at h
  · exact absurd h (by simp)
  · dsimp only at h
    split at h
    · exact absurd h (by simp)
    · rw [Except.ok.injEq, Prod.mk.injEq] at h
      obtain ⟨hs, -⟩ := h
      subst hs
      exact ⟨rfl, rfl⟩

/-- A successful submission preserves the counter invariant. -/
theorem counters_ok_step (lecture : Lecture) (s : TestSession)
    (req : AnswerQuestionRequest) (now : Nat) (s' : TestSession)
    (resp : AnswerQuestionResponse)
    (hok : answer_question lecture s req now = .ok (s', resp))
    (hc : counters_ok s) : counters_ok s' := by
  obtain ⟨q, b, t, -, -, hans, htot, hcc, -, -, -⟩ :=
    answer_question_ok_inv _ _ _ _ _ _ hok
  constructor
  · rw [htot, hans, List.length_append, hc.1]
    rfl
  · rw [hcc, hans, List.filter_append, List.length_append, hc.2]
    congr 1
    cases b <;> simp [appended_record]

/-- The score only depends on the two counters. -/
theorem session_score_congr (a b : TestSession)
    (h1 : a.total_answered = b.total_answered)
    (h2 : a.correct_count = b.correct_count) :
    session_score a = session_score b := by
  unfold session_score
  rw [h1, h2]

/-- C9: every session reachable through `start_session` and
`answer_question` satisfies `total_answered = len(answers)` and
`correct_count = count(is_correct)`; consequently its score
(`correct_count/total_answered`, 0 when nothing is answered) lies in
[0, 1], and the score reported by a successful submission is exactly the
score of the stored updated session. -/
theorem C9_counters_and_score (lecture : Lecture) (s : TestSession)
    (hr : Reachable lecture s) :
    counters_ok s ∧ 0 ≤ session_score s ∧ session_score s ≤ 1 ∧
    (∀ req now s' resp, answer_question lecture s req now = .ok (s', resp) →
      resp.score = session_score s') := by
  have hco : counters_ok s := by
    induction hr with
    | start sid lid s q h => exact counters_ok_start lecture sid lid s q h
    | step s req now s' resp hr hok ih =>
      exact counters_ok_step lecture s req now s' resp hok ih
  refine ⟨hco, ?_, ?_, ?_⟩
  · unfold session_score
    split
    · positivity
    · exact le_refl 0
  · unfold session_score
    split
    · next htot =>
      have hle : s.correct_count ≤ s.total_answered := by
        rw [hco.1, hco.2]
        exact List.length_filter_le _ _
      have hpos : (0 : Rat) < (s.total_answered : Rat) := by
        exact_mod_cast Nat.pos_of_ne_zero htot
      rw [div_le_one hpos]
      exact_mod_cast hle
    · norm_num
  · intro req now s' resp hok
    obtain ⟨q, b, t, -, -, -, htot, hcc, -, -, hscore⟩ :=
      answer_question_ok_inv _ _ _ _ _ _ hok
    rw [hscore]
    refine session_score_congr _ _ ?_ ?_
    · rw [(update_difficulty_fields _).2.2.1, htot]
      rfl
    · rw [(update_difficulty_fields _).2.1, hcc]
      rfl

/-- Witness for C9 on a concrete freshly started session. -/
theorem C9_counters_and_score_witness :
    Reachable lecFix1 sessFixFresh ∧ counters_ok sessFixFresh ∧
      0 ≤ session_score sessFixFresh ∧ session_score sessFixFresh ≤ 1 := by
  have hr : Reachable lecFix1 sessFixFresh :=
    .start "S" none sessFixFresh qFix1 rfl
  obtain ⟨h1, h2, h3, -⟩ := C9_counters_and_score lecFix1 sessFixFresh hr
  exact ⟨hr, h1, h2, h3⟩
